import Mathlib

/-!
Verification development for `src/cyp/models/rnn.py` (pycrop-yield-prediction).

The file shallowly embeds the two classes of that module:

* `RNNet` (the `nn.Module`): construction of the dense-layer stack from the
  (mutated-in-place) dense-feature-size list, `initialize_weights`, and the
  `forward` computation (reshape, explicit timestep unroll with per-step
  dropout on the hidden state, optional year/location augmentation, dense
  stack with optional capture of the second-to-last layer's output).
* `RNNModel` (the factory): the `num_dense_layers` computation that names the
  final dense layer's weight/bias parameters, and `reinitialize_model`.

Tensors are nested lists over a commutative ring `α` (instantiated at `ℚ` for
executable witnesses and at `ℝ` for the initialization-bound theorem).
Library-external pieces are parameters: the LSTM cell (`lstm`), the dropout
module (`dropoutF`), and the random draw streams used by the initializers.
A `forward` result of `none` models a Python runtime error (the
uninitialized `output` variable, or a missing `years`/`locations` argument
while `add_year_loc` is set).
-/

namespace CropRNN

abbrev Vec (α : Type) := List α
abbrev Mat (α : Type) := List (List α)
abbrev T3 (α : Type) := List (List (List α))
abbrev T4 (α : Type) := List (List (List (List α)))

variable {α : Type} [CommRing α]

/-- A `nn.Linear` layer: `weight` has shape `[out_features, in_features]`
(one row per output feature) and `bias` has shape `[out_features]`. -/
structure Linear (α : Type) where
  weight : List (List α)
  bias : List α

instance : Inhabited (Linear α) := ⟨⟨[], []⟩⟩

/-- The number of output features of a `nn.Linear`: the number of rows of its
weight matrix (`weight.shape[0]`). -/
def Linear.outFeatures (L : Linear α) : ℕ := L.weight.length

/-- Dot product of two vectors (used by the linear layer). -/
def dot (a b : Vec α) : α := (List.zipWith (fun x y => x * y) a b).sum

/-- Batched application of a linear layer: each row `r` of the batch is sent
to `weight · r + bias` (the semantics of `nn.Linear`). -/
def Linear.apply (L : Linear α) (x : Mat α) : Mat α :=
  x.map (fun row => (L.weight.zip L.bias).map (fun wb => dot wb.1 row + wb.2))

/-- The state of an `RNNet` module (`RNNet.__init__`, rnn.py lines 70-94):
the `add_year_loc` flag, the hidden size, the LSTM parameter tensors
(`self.rnn.all_weights`: one group per layer, each a list of flat parameter
tensors), and the ordered dense-layer stack `self.dense_layers`. -/
structure RNNet (α : Type) where
  add_year_loc : Bool
  hidden_size : ℕ
  rnn_all_weights : List (List (List α))
  dense_layers : List (Linear α)

/-- The dense-feature-size list as it stands after `RNNet.__init__` ran
(rnn.py lines 73-79): default to `[256, 1]` when `None` was passed, then
`dense_features.insert(0, hidden_size)`, then — when `add_year_loc` is set —
`dense_features[0] += 3`.  Both updates mutate the caller's list in place;
this function returns the value of that shared list afterwards. -/
def denseFeaturesOf (hidden_size : ℕ) (add_year_loc : Bool)
    (dense_features : Option (List ℕ)) : List ℕ :=
  let df := match dense_features with
    | none => [256, 1]
    | some l => l
  let df := hidden_size :: df
  if add_year_loc then
    match df with
    | [] => []
    | a :: rest => (a + 3) :: rest
  else df

/-- `nn.init.uniform_(t, a, b)`: overwrite a flat parameter tensor with fresh
draws `a + (b - a) * u e`, one per element, where `u e ∈ [0, 1]` is the
element's unit draw.  The shape (element count) is preserved. -/
def uniformFill (a b : α) (u : ℕ → α) (t : List α) : List α :=
  (List.range t.length).map (fun e => a + (b - a) * u e)

/-- `RNNet.initialize_weights` (rnn.py lines 96-105) with the library draws
made explicit: `sqrt_k` stands for the float `math.sqrt(1 / hidden_size)`
(the theorems instantiate it with the real value), `u` is the unit-draw
stream behind `nn.init.uniform_(pam, -sqrt_k, sqrt_k)` on every LSTM
parameter tensor, and `kai` is the draw stream behind
`nn.init.kaiming_uniform_` on the dense weights (no claim constrains the
kaiming distribution, so its draws are left unconstrained).  Every dense
bias is overwritten with the constant 0 (`nn.init.constant_`). -/
def RNNet.init_weights (sqrt_k : α) (u kai : ℕ → α) (net : RNNet α) : RNNet α :=
  { net with
    rnn_all_weights := net.rnn_all_weights.map (fun parameters =>
      parameters.map (fun pam => uniformFill (-sqrt_k) sqrt_k u pam))
    dense_layers := net.dense_layers.map (fun dense_layer =>
      { weight := dense_layer.weight.map (fun row => (List.range row.length).map kai)
        bias := dense_layer.bias.map (fun _ => 0) }) }

/-- The parameter tensors of a one-layer `nn.LSTM(input_size, hidden_size)`,
flattened: `weight_ih_l0` (`4*hidden*input` elements), `weight_hh_l0`
(`4*hidden*hidden`), `bias_ih_l0` and `bias_hh_l0` (`4*hidden` each), with
initial values from the stream `rngR` (overwritten by `init_weights`). -/
def mkLSTMparams (rngR : ℕ → α) (input_size hidden_size : ℕ) : List (List α) :=
  [ (List.range (4 * hidden_size * input_size)).map rngR,
    (List.range (4 * hidden_size * hidden_size)).map rngR,
    (List.range (4 * hidden_size)).map rngR,
    (List.range (4 * hidden_size)).map rngR ]

/-- `RNNet.__init__` (rnn.py lines 70-94): derive the dense-feature list,
build the LSTM (`input_size = in_channels * num_bins`), build
`self.dense_layers = [Linear(dense_features[i-1], dense_features[i]) for i
in range(1, len(dense_features))]` (fresh values from the stream `rngW`),
and finally call `self.initialize_weights()`. -/
def RNNet.make (rngW : ℕ → ℕ → ℕ → α) (rngR : ℕ → α) (sqrt_k : α) (u kai : ℕ → α)
    (in_channels num_bins hidden_size : ℕ) (dense_features : Option (List ℕ))
    (add_year_loc : Bool) : RNNet α :=
  let dfs := denseFeaturesOf hidden_size add_year_loc dense_features
  RNNet.init_weights sqrt_k u kai
    { add_year_loc := add_year_loc
      hidden_size := hidden_size
      rnn_all_weights := [mkLSTMparams rngR (in_channels * num_bins) hidden_size]
      dense_layers := (List.range (dfs.length - 1)).map (fun j =>
        { weight := (List.range (dfs.getD (j + 1) 0)).map (fun r =>
            (List.range (dfs.getD j 0)).map (fun c => rngW j r c))
          bias := (List.range (dfs.getD (j + 1) 0)).map (fun r => rngW j r 0) }) }

/-- `RNNModel.__init__`'s dense-layer count (rnn.py lines 46-49).  The branch
on `dense_features is None` runs *after* `RNNet.__init__` already mutated the
caller's list in place, so in the `some` branch `len(dense_features)` is the
length of the mutated list, i.e. of `denseFeaturesOf`. -/
def RNNModel.num_dense_layers (hidden_size : ℕ) (add_year_loc : Bool)
    (dense_features : Option (List ℕ)) : ℕ :=
  match dense_features with
  | none => 2
  | some _ => (denseFeaturesOf hidden_size add_year_loc dense_features).length

/-- The index `n - 1` in the parameter names
`dense_layers.{n-1}.weight` / `dense_layers.{n-1}.bias` computed by
`RNNModel.__init__` (rnn.py lines 50-51). -/
def RNNModel.final_dense_index (hidden_size : ℕ) (add_year_loc : Bool)
    (dense_features : Option (List ℕ)) : ℕ :=
  RNNModel.num_dense_layers hidden_size add_year_loc dense_features - 1

/-- `RNNModel.reinitialize_model` (rnn.py lines 59-60): delegate to the
network's weight initialization, ignoring the `time` argument. -/
def RNNModel.reinitialize_model (time : Option ℕ) (sqrt_k : α) (u kai : ℕ → α)
    (net : RNNet α) : RNNet α :=
  RNNet.init_weights sqrt_k u kai net

/-! ## The forward computation (rnn.py lines 107-149) -/

/-- `x.permute(0, 2, 1, 3)` on a `[batch, bands, times, bins]` tensor:
swap the middle two axes, giving `[batch, times, bands, bins]`
(`.contiguous()` only affects storage, not the value). -/
def permute_0213 (x : T4 α) : T4 α :=
  x.map (fun xb => (List.range ((xb.headD []).length)).map (fun t =>
    xb.map (fun xc => xc.getD t [])))

/-- `x.view(x.shape[0], x.shape[1], x.shape[2] * x.shape[3])`: flatten the
last two axes of a `[batch, times, bands, bins]` tensor into
`[batch, times, bands * bins]`. -/
def view_flatten23 (x : T4 α) : T3 α :=
  x.map (fun xb => xb.map (fun xt => xt.flatten))

/-- `x[:, i, :].unsqueeze(1)`: the single-timestep slice of the reshaped
input, of shape `[batch, 1, features]`. -/
def timeSlice (x : T3 α) (i : ℕ) : T3 α :=
  x.map (fun row => [row.getD i []])

/-- The unrolled recurrence (rnn.py lines 127-137): `for i in
range(sequence_length)`, feed `x[:, i, :].unsqueeze(1)` and the current
`(hidden_state, cell_state)` into the LSTM, then apply dropout to the
updated hidden state (and only to it).  `fuel` counts the remaining
iterations (`sequence_length` at the first call) and `i` is the loop index. -/
def rnnLoop (lstm : T3 α → T3 α × T3 α → T3 α × T3 α) (dropoutF : T3 α → T3 α)
    (x : T3 α) : ℕ → ℕ → T3 α × T3 α → T3 α × T3 α
  | 0, _, s => s
  | fuel + 1, i, (hidden_state, cell_state) =>
    let input_x := timeSlice x i
    let s := lstm input_x (hidden_state, cell_state)
    rnnLoop lstm dropoutF x fuel (i + 1) (dropoutF s.1, s.2)

/-- The per-timestep update as the specification words it: the cell consumes
the single-timestep slice and the current `(hidden, cell)` pair, and dropout
is then applied to the updated hidden state only, never to the cell state. -/
def stepSpec (lstm : T3 α → T3 α × T3 α → T3 α × T3 α) (dropoutF : T3 α → T3 α)
    (s : T3 α × T3 α) (input_x : T3 α) : T3 α × T3 α :=
  (dropoutF (lstm input_x s).1, (lstm input_x s).2)

/-- Everything of `forward` up to and including `x = hidden_state.squeeze(0)`
(rnn.py lines 115-138): reshape, zero-initialize the states of shape
`[1, batch, hidden_size]`, run the unrolled recurrence for
`sequence_length = x.shape[1]` steps, and drop the leading axis of the final
hidden state. -/
def RNNet.postRNN (net : RNNet α) (lstm : T3 α → T3 α × T3 α → T3 α × T3 α)
    (dropoutF : T3 α → T3 α) (x0 : T4 α) : Mat α :=
  let x := view_flatten23 (permute_0213 x0)
  let sequence_length := (x.headD []).length
  let hidden_state : T3 α := [List.replicate x.length (List.replicate net.hidden_size 0)]
  let cell_state : T3 α := [List.replicate x.length (List.replicate net.hidden_size 0)]
  ((rnnLoop lstm dropoutF x sequence_length 0 (hidden_state, cell_state)).1).headD []

/-- `forward` up to the point where the feature vector enters the dense
stack (rnn.py lines 139-141).  When `add_year_loc` is set,
`year_loc = torch.cat((years.unsqueeze(1), locations), dim=1)` (the year
scalar first, then the 2-component location) is concatenated onto each
feature row; calling with `years=None` or `locations=None` while the flag
is set raises in Python, modelled by `none`. -/
def RNNet.preDense (net : RNNet α) (lstm : T3 α → T3 α × T3 α → T3 α × T3 α)
    (dropoutF : T3 α → T3 α) (x0 : T4 α) (years : Option (Vec α))
    (locations : Option (Mat α)) : Option (Mat α) :=
  let x := net.postRNN lstm dropoutF x0
  if net.add_year_loc then
    match years, locations with
    | some ys, some locs =>
      let year_loc := List.zipWith (fun y l => y :: l) ys locs
      some (List.zipWith (fun r yl => r ++ yl) x year_loc)
    | _, _ => none
  else some x

/-- The dense-layer loop (rnn.py lines 143-146): apply the layers in order,
and capture the current value right after the layer whose (Python `int`)
index equals `len(self.dense_layers) - 2` when `return_last_dense` is set.
`n` is `len(self.dense_layers)` and `i` the running `enumerate` index, both
as mathematical integers (so that `n - 2` is `-1`, never a wrapped natural,
when the stack has a single layer). -/
def denseLoop (return_last_dense : Bool) (n : ℤ) :
    ℤ → List (Linear α) → Mat α × Option (Mat α) → Mat α × Option (Mat α)
  | _, [], s => s
  | i, dense_layer :: rest, (x, out) =>
    let x' := dense_layer.apply x
    denseLoop return_last_dense n (i + 1) rest
      (x', if return_last_dense ∧ i = n - 2 then some x' else out)

/-- The result of `forward`: either the final tensor alone, or — when
`return_last_dense` was set — the pair of the final tensor and the captured
output of the second-to-last dense layer. -/
inductive FOut (α : Type) where
  | single (y : Mat α) : FOut α
  | pair (y feature : Mat α) : FOut α
deriving DecidableEq

/-- The tail of `forward` after the feature vector `x1` is fixed (rnn.py
lines 143-149): run the dense loop, and on `return_last_dense` return the
pair — or fail (`none`) when the capture variable `output` was never
assigned, which is Python's `UnboundLocalError` at `return x, output`. -/
def RNNet.denseOut (net : RNNet α) (x1 : Mat α) (return_last_dense : Bool) :
    Option (FOut α) :=
  let r := denseLoop return_last_dense (net.dense_layers.length : ℤ) 0
    net.dense_layers (x1, none)
  if return_last_dense then
    match r.2 with
    | some output => some (.pair r.1 output)
    | none => none
  else some (.single r.1)

/-- `RNNet.forward` (rnn.py lines 107-149). -/
def RNNet.forward (net : RNNet α) (lstm : T3 α → T3 α × T3 α → T3 α × T3 α)
    (dropoutF : T3 α → T3 α) (x0 : T4 α) (years : Option (Vec α))
    (locations : Option (Mat α)) (return_last_dense : Bool) : Option (FOut α) :=
  match net.preDense lstm dropoutF x0 years locations with
  | none => none
  | some x1 => net.denseOut x1 return_last_dense

/-! ## Shape predicates -/

/-- A regular 2-D tensor of shape `[d0, d1]`. -/
def Shape2 (m : Mat α) (d0 d1 : ℕ) : Prop :=
  m.length = d0 ∧ ∀ v ∈ m, v.length = d1

/-- A regular 3-D tensor of shape `[d0, d1, d2]`. -/
def Shape3 (t : T3 α) (d0 d1 d2 : ℕ) : Prop :=
  t.length = d0 ∧ ∀ m ∈ t, Shape2 m d1 d2

/-- A regular 4-D tensor of shape `[d0, d1, d2, d3]`. -/
def Shape4 (t : T4 α) (d0 d1 d2 d3 : ℕ) : Prop :=
  t.length = d0 ∧ ∀ u ∈ t, Shape3 u d1 d2 d3

instance (m : Mat α) (d0 d1 : ℕ) : Decidable (Shape2 m d0 d1) := by
  unfold Shape2; infer_instance

instance (t : T3 α) (d0 d1 d2 : ℕ) : Decidable (Shape3 t d0 d1 d2) := by
  unfold Shape3 Shape2; infer_instance

instance (t : T4 α) (d0 d1 d2 d3 : ℕ) : Decidable (Shape4 t d0 d1 d2 d3) := by
  unfold Shape4 Shape3 Shape2; infer_instance

/-! ## The dense stack as a plain composition -/

/-- Applying a list of dense layers in order (no capture). -/
def applyStack (ls : List (Linear α)) (x : Mat α) : Mat α :=
  ls.foldl (fun a L => L.apply a) x

lemma applyStack_nil (x : Mat α) : applyStack ([] : List (Linear α)) x = x := rfl

lemma applyStack_cons (L : Linear α) (ls : List (Linear α)) (x : Mat α) :
    applyStack (L :: ls) x = applyStack ls (L.apply x) := rfl

lemma Linear.apply_length (L : Linear α) (x : Mat α) :
    (L.apply x).length = x.length := by
  simp [Linear.apply]

lemma Linear.apply_width (L : Linear α) (hb : L.bias.length = L.weight.length)
    (x : Mat α) : ∀ r ∈ L.apply x, r.length = L.weight.length := by
  intro r hr
  simp only [Linear.apply, List.mem_map] at hr
  obtain ⟨row, _, rfl⟩ := hr
  simp [List.length_zip, hb]

lemma applyStack_length (ls : List (Linear α)) (x : Mat α) :
    (applyStack ls x).length = x.length := by
  induction ls generalizing x with
  | nil => rfl
  | cons L rest ih => rw [applyStack_cons, ih, Linear.apply_length]

lemma applyStack_width : ∀ (ls : List (Linear α)), ls ≠ [] →
    (∀ L ∈ ls, L.bias.length = L.weight.length) →
    ∀ (x : Mat α), ∀ r ∈ applyStack ls x,
      r.length = (ls.getLastD default).weight.length
  | [], h, _ => absurd rfl h
  | [L], _, hw => by
    intro x r hr
    rw [applyStack_cons, applyStack_nil] at hr
    simpa using L.apply_width (hw L (by simp)) x r hr
  | L :: L2 :: rest, _, hw => by
    intro x r hr
    rw [applyStack_cons] at hr
    have h2 := applyStack_width (L2 :: rest) (by simp)
      (fun M hM => hw M (List.mem_cons_of_mem _ hM)) (L.apply x) r hr
    simpa using h2

/-- Characterization of the dense loop when `return_last_dense` is off:
the layers are applied in order and nothing is captured. -/
lemma denseLoop_false_eq (n : ℤ) :
    ∀ (ls : List (Linear α)) (i : ℤ) (x : Mat α) (o : Option (Mat α)),
      denseLoop false n i ls (x, o) = (applyStack ls x, o)
  | [], _, _, _ => rfl
  | L :: rest, i, x, o => by
    rw [applyStack_cons]
    have h := denseLoop_false_eq n rest (i + 1) (L.apply x) o
    simpa [denseLoop] using h

/-- Characterization of the dense loop when `return_last_dense` is on:
the first component is the full composition, and the second is the value
right after the layer at (integer) position `n - 2 - i` when that position
falls inside the traversed list, the incoming capture otherwise. -/
lemma denseLoop_true_eq (n : ℤ) :
    ∀ (ls : List (Linear α)) (i : ℤ) (x : Mat α) (o : Option (Mat α)),
      denseLoop true n i ls (x, o) =
        (applyStack ls x,
          if 0 ≤ n - 2 - i ∧ n - 2 - i < (ls.length : ℤ) then
            some (applyStack (ls.take ((n - 2 - i).toNat + 1)) x)
          else o)
  | [], i, x, o => by
    simp only [denseLoop, applyStack_nil, List.length_nil, Nat.cast_zero]
    rw [if_neg (by omega)]
  | L :: rest, i, x, o => by
    rw [denseLoop, denseLoop_true_eq n rest (i + 1), applyStack_cons]
    have hc : (if (true = true) ∧ i = n - 2 then some (L.apply x) else o)
        = if i = n - 2 then some (L.apply x) else o := by simp
    rw [hc]
    by_cases hB : i = n - 2
    · rw [if_pos hB,
        if_neg (show ¬(0 ≤ n - 2 - (i + 1) ∧ n - 2 - (i + 1) < (rest.length : ℤ)) by omega),
        if_pos (show 0 ≤ n - 2 - i ∧ n - 2 - i < ((L :: rest).length : ℤ) by
          simp only [List.length_cons]; push_cast; omega)]
      have h0 : n - 2 - i = 0 := by omega
      rw [h0]
      simp [applyStack_cons, applyStack_nil]
    · by_cases h2 : 0 ≤ n - 2 - i ∧ n - 2 - i < ((L :: rest).length : ℤ)
      · rw [if_neg hB, if_pos h2,
          if_pos (show 0 ≤ n - 2 - (i + 1) ∧ n - 2 - (i + 1) < (rest.length : ℤ) by
            simp only [List.length_cons] at h2; push_cast at h2 ⊢; omega)]
        have ht : (n - 2 - i).toNat + 1 = ((n - 2 - (i + 1)).toNat + 1) + 1 := by
          simp only [List.length_cons] at h2; omega
        rw [ht, List.take_succ_cons, applyStack_cons]
      · rw [if_neg hB, if_neg h2,
          if_neg (show ¬(0 ≤ n - 2 - (i + 1) ∧ n - 2 - (i + 1) < (rest.length : ℤ)) by
            simp only [List.length_cons] at h2; push_cast at h2 ⊢; omega)]

/-! ## Claim theorems: factory index and recurrence structure -/

/-- **C1** (code bug).  With the default `dense_features=None` the factory's
final-dense-layer index (1) does name the last constructed layer; but with
an explicitly passed list such as `[256, 1]` the factory computes the index
from the list it already mutated in place, obtaining 2 while the network's
last dense layer has index 1 — `dense_layers.2.weight` names no layer of
the constructed network. -/
theorem rnn_model_final_dense_index_bug :
    RNNModel.final_dense_index 128 false (some [256, 1]) = 2 ∧
    ((RNNet.make (α := ℚ) (fun _ _ _ => 0) (fun _ => 0) 0 (fun _ => 0) (fun _ => 0)
        9 32 128 (some [256, 1]) false).dense_layers.length - 1 = 1) ∧
    RNNModel.final_dense_index 128 false none = 1 ∧
    ((RNNet.make (α := ℚ) (fun _ _ _ => 0) (fun _ => 0) 0 (fun _ => 0) (fun _ => 0)
        9 32 128 none false).dense_layers.length - 1 = 1) := by
  exact ⟨rfl, rfl, rfl, rfl⟩

/-- **C3** (confirmed).  The unrolled recurrence of `forward` is exactly a
left fold, in strict timestep order, of the specification's per-step update
over the `T` single-timestep slices: each step feeds the slice and the
current `(hidden, cell)` pair to the cell and then applies dropout to the
updated hidden state only — never to the cell state — after every step,
the final one included (`stepSpec`). -/
theorem rnn_unroll_matches_spec_fold (lstm : T3 α → T3 α × T3 α → T3 α × T3 α)
    (dropoutF : T3 α → T3 α) (x : T3 α) (T : ℕ) (i : ℕ) (s : T3 α × T3 α) :
    rnnLoop lstm dropoutF x T i s =
      ((List.range T).map (fun j => timeSlice x (i + j))).foldl
        (stepSpec lstm dropoutF) s := by
  induction T generalizing i s with
  | zero => rfl
  | succ k ih =>
    obtain ⟨h, c⟩ := s
    rw [rnnLoop, ih (i + 1), List.range_succ_eq_map]
    simp only [List.map_cons, List.foldl_cons, List.map_map]
    have harg : (dropoutF (lstm (timeSlice x i) (h, c)).1, (lstm (timeSlice x i) (h, c)).2)
        = stepSpec lstm dropoutF (h, c) (timeSlice x (i + 0)) := by
      simp [stepSpec]
    rw [harg]
    have hmap : List.map (fun j => timeSlice x (i + 1 + j)) (List.range k)
        = List.map ((fun j => timeSlice x (i + j)) ∘ Nat.succ) (List.range k) := by
      apply List.map_congr_left
      intro j _
      simp only [Function.comp_apply]
      congr 1
      omega
    rw [hmap]

/-! ## Shape propagation through the recurrence -/

lemma shape3_zeros (B H : ℕ) :
    Shape3 ([List.replicate B (List.replicate H (0 : α))]) 1 B H := by
  refine ⟨rfl, ?_⟩
  intro m hm
  simp only [List.mem_singleton] at hm
  subst hm
  refine ⟨by simp, ?_⟩
  intro v hv
  simp [List.eq_of_mem_replicate hv]

lemma shape3_headD (t : T3 α) (B H : ℕ) (h : Shape3 t 1 B H) :
    Shape2 (t.headD []) B H := by
  obtain ⟨h1, h2⟩ := h
  obtain ⟨m, rfl⟩ := List.length_eq_one.mp h1
  exact h2 m (by simp)

lemma rnnLoop_shape (lstm : T3 α → T3 α × T3 α → T3 α × T3 α)
    (dropoutF : T3 α → T3 α) (B H : ℕ)
    (hl : ∀ inp s, Shape3 s.1 1 B H → Shape3 s.2 1 B H →
      Shape3 (lstm inp s).1 1 B H ∧ Shape3 (lstm inp s).2 1 B H)
    (hd : ∀ t, Shape3 t 1 B H → Shape3 (dropoutF t) 1 B H) (x : T3 α) :
    ∀ (T i : ℕ) (s : T3 α × T3 α), Shape3 s.1 1 B H → Shape3 s.2 1 B H →
      Shape3 (rnnLoop lstm dropoutF x T i s).1 1 B H ∧
      Shape3 (rnnLoop lstm dropoutF x T i s).2 1 B H
  | 0, _, _, h1, h2 => ⟨h1, h2⟩
  | T + 1, i, (h, c), h1, h2 => by
    rw [rnnLoop]
    have hs := hl (timeSlice x i) (h, c) h1 h2
    exact rnnLoop_shape lstm dropoutF B H hl hd x T (i + 1) _ (hd _ hs.1) hs.2

lemma view_permute_length (x0 : T4 α) :
    (view_flatten23 (permute_0213 x0)).length = x0.length := by
  simp [view_flatten23, permute_0213]

/-- The feature vector produced by the recurrence has shape
`[batch, hidden_size]` whenever the cell and the dropout preserve the
`[1, batch, hidden_size]` state shape. -/
lemma postRNN_shape (net : RNNet α) (lstm : T3 α → T3 α × T3 α → T3 α × T3 α)
    (dropoutF : T3 α → T3 α) (B : ℕ) (x0 : T4 α) (hB : x0.length = B)
    (hl : ∀ inp s, Shape3 s.1 1 B net.hidden_size → Shape3 s.2 1 B net.hidden_size →
      Shape3 (lstm inp s).1 1 B net.hidden_size ∧
      Shape3 (lstm inp s).2 1 B net.hidden_size)
    (hd : ∀ t, Shape3 t 1 B net.hidden_size → Shape3 (dropoutF t) 1 B net.hidden_size) :
    Shape2 (net.postRNN lstm dropoutF x0) B net.hidden_size := by
  unfold RNNet.postRNN
  have hxlen : (view_flatten23 (permute_0213 x0)).length = B := by
    rw [view_permute_length, hB]
  dsimp only
  rw [hxlen]
  exact shape3_headD _ _ _
    (rnnLoop_shape lstm dropoutF B net.hidden_size hl hd _ _ 0 _
      (shape3_zeros B net.hidden_size) (shape3_zeros B net.hidden_size)).1

/-! ## The constructed network's layer shapes -/

lemma make_add_year_loc (rngW : ℕ → ℕ → ℕ → α) (rngR : ℕ → α) (sqrt_k : α)
    (u kai : ℕ → α) (in_channels num_bins hidden_size : ℕ)
    (df : Option (List ℕ)) (ayl : Bool) :
    (RNNet.make rngW rngR sqrt_k u kai in_channels num_bins hidden_size df ayl).add_year_loc
      = ayl := rfl

lemma make_hidden_size (rngW : ℕ → ℕ → ℕ → α) (rngR : ℕ → α) (sqrt_k : α)
    (u kai : ℕ → α) (in_channels num_bins hidden_size : ℕ)
    (df : Option (List ℕ)) (ayl : Bool) :
    (RNNet.make rngW rngR sqrt_k u kai in_channels num_bins hidden_size df ayl).hidden_size
      = hidden_size := rfl

/-- The dense stack of a freshly constructed network, after the constructor's
`initialize_weights` call: one layer per adjacent pair of the (mutated)
dense-feature list, with `out_features` rows of `in_features` kaiming draws
and an all-zero bias of length `out_features`. -/
lemma make_dense_layers_eq (rngW : ℕ → ℕ → ℕ → α) (rngR : ℕ → α) (sqrt_k : α)
    (u kai : ℕ → α) (in_channels num_bins hidden_size : ℕ)
    (df : Option (List ℕ)) (ayl : Bool) :
    (RNNet.make rngW rngR sqrt_k u kai in_channels num_bins hidden_size df ayl).dense_layers
      = (List.range ((denseFeaturesOf hidden_size ayl df).length - 1)).map (fun j =>
          { weight := List.replicate ((denseFeaturesOf hidden_size ayl df).getD (j + 1) 0)
              ((List.range ((denseFeaturesOf hidden_size ayl df).getD j 0)).map kai)
            bias := List.replicate ((denseFeaturesOf hidden_size ayl df).getD (j + 1) 0)
              (0 : α) }) := by
  show ((List.range _).map _).map _ = _
  rw [List.map_map]
  apply List.map_congr_left
  intro j _
  simp [Function.comp, List.map_map]
  constructor
  · rw [List.eq_replicate_iff]
    refine ⟨by simp, ?_⟩
    intro row hrow
    simp only [List.mem_map] at hrow
    obtain ⟨r, _, rfl⟩ := hrow
    simp
  · rw [List.eq_replicate_iff]
    constructor
    · simp
    · intro b hb
      simp only [List.mem_map] at hb
      obtain ⟨r, _, rfl⟩ := hb
      rfl

lemma make_dense_layers_length (rngW : ℕ → ℕ → ℕ → α) (rngR : ℕ → α) (sqrt_k : α)
    (u kai : ℕ → α) (in_channels num_bins hidden_size : ℕ)
    (df : Option (List ℕ)) (ayl : Bool) :
    (RNNet.make rngW rngR sqrt_k u kai in_channels num_bins hidden_size df ayl).dense_layers.length
      = (denseFeaturesOf hidden_size ayl df).length - 1 := by
  rw [make_dense_layers_eq]
  simp

lemma make_bias_length (rngW : ℕ → ℕ → ℕ → α) (rngR : ℕ → α) (sqrt_k : α)
    (u kai : ℕ → α) (in_channels num_bins hidden_size : ℕ)
    (df : Option (List ℕ)) (ayl : Bool) :
    ∀ L ∈ (RNNet.make rngW rngR sqrt_k u kai in_channels num_bins hidden_size df ayl).dense_layers,
      L.bias.length = L.weight.length := by
  rw [make_dense_layers_eq]
  intro L hL
  simp only [List.mem_map] at hL
  obtain ⟨j, _, rfl⟩ := hL
  simp

/-! ## Last-element bookkeeping -/

lemma getLastD_map_range {γ : Type} (f : ℕ → γ) (m : ℕ) (d : γ) (hm : m ≠ 0) :
    ((List.range m).map f).getLastD d = f (m - 1) := by
  obtain ⟨k, rfl⟩ : ∃ k, m = k + 1 := ⟨m - 1, by omega⟩
  rw [List.range_succ, List.map_append]
  simp

lemma getLastD_irrel {γ : Type} : ∀ (l : List γ), l ≠ [] → ∀ (a b : γ),
    l.getLastD a = l.getLastD b
  | [], h, _, _ => absurd rfl h
  | x :: t, h, _, _ => by
    simp [List.getLast?_eq_getLast_of_ne_nil (l := x :: t) h]

lemma getD_length_sub_one {γ : Type} : ∀ (l : List γ) (d : γ), l ≠ [] →
    l.getD (l.length - 1) d = l.getLastD d
  | [], _, h => absurd rfl h
  | [_], _, _ => rfl
  | a :: b :: t, d, _ => by
    have ih := getD_length_sub_one (b :: t) d (by simp)
    have h1 : (a :: b :: t).length - 1 = ((b :: t).length - 1) + 1 := by simp
    rw [h1, List.getD_cons_succ, ih]
    simp [List.getLastD_cons]

/-! ## Concrete objects for the witnesses -/

/-- A concrete constructed network: channels=1, bins=1, hidden_size=2,
dense_features=[1], no augmentation, all draw streams constantly 0. -/
def netSmall : RNNet ℚ :=
  RNNet.make (fun _ _ _ => 0) (fun _ => 0) 0 (fun _ => 0) (fun _ => 0)
    1 1 2 (some [1]) false

/-- A concrete stand-in for the LSTM cell that passes the state through. -/
def lstmId : T3 ℚ → T3 ℚ × T3 ℚ → T3 ℚ × T3 ℚ := fun _ s => s

/-- A concrete input tensor of shape `[1, 1, 3, 1]` (batch=1, channels=1,
time=3, bins=1). -/
def xSmall : T4 ℚ := [[[[1], [2], [3]]]]

/-! ## Claim theorems: year/location independence and the single-layer fault -/

/-- **C9** (confirmed).  When the network was built with
`add_year_loc = False`, `forward` never looks at `years` or `locations`:
the result is identical whether or not they are passed. -/
theorem forward_ignores_year_loc_when_disabled (net : RNNet α)
    (lstm : T3 α → T3 α × T3 α → T3 α × T3 α) (dropoutF : T3 α → T3 α)
    (x0 : T4 α) (years : Option (Vec α)) (locations : Option (Mat α))
    (return_last_dense : Bool) (hflag : net.add_year_loc = false) :
    net.forward lstm dropoutF x0 years locations return_last_dense =
      net.forward lstm dropoutF x0 none none return_last_dense := by
  unfold RNNet.forward RNNet.preDense
  rw [hflag]
  simp

/-- Witness for C9 at a concrete network, input and year/location pair. -/
theorem forward_ignores_year_loc_when_disabled_witness :
    netSmall.add_year_loc = false ∧
    netSmall.forward lstmId id xSmall (some [5]) (some [[6, 7]]) false =
      netSmall.forward lstmId id xSmall none none false :=
  ⟨rfl, forward_ignores_year_loc_when_disabled netSmall lstmId id xSmall
    (some [5]) (some [[6, 7]]) false rfl⟩

/-- **C2** counterexample.  In exactly the claimed configuration
(channels=1, bins=1, hidden_size=2, dense_features=[1], batch=1, time=3, no
augmentation), `forward` with `return_last_dense=True` does not return the
claimed `[1,1]` output together with a `[1,2]` feature vector: the single
dense layer means the "second-to-last" capture never fires, the `output`
variable is never assigned, and the call fails (modelled `none`). -/
theorem forward_single_dense_rld_fails :
    netSmall.forward lstmId id xSmall none none true = none := by rfl

/-- **C2** (corrected).  In the claimed configuration, `forward` without
`return_last_dense` does return a `[1, 1]` tensor; with
`return_last_dense=True` the call returns no value at all (the capture for
the nonexistent second-to-last dense layer is never assigned). -/
theorem forward_small_config_shapes
    (rngW : ℕ → ℕ → ℕ → α) (rngR : ℕ → α) (sqrt_k : α) (u kai : ℕ → α)
    (lstm : T3 α → T3 α × T3 α → T3 α × T3 α) (dropoutF : T3 α → T3 α)
    (hl : ∀ inp s, Shape3 s.1 1 1 2 → Shape3 s.2 1 1 2 →
      Shape3 (lstm inp s).1 1 1 2 ∧ Shape3 (lstm inp s).2 1 1 2)
    (hd : ∀ t, Shape3 t 1 1 2 → Shape3 (dropoutF t) 1 1 2)
    (x0 : T4 α) (hx : Shape4 x0 1 1 3 1) :
    (∃ y, RNNet.forward (RNNet.make rngW rngR sqrt_k u kai 1 1 2 (some [1]) false)
        lstm dropoutF x0 none none false = some (FOut.single y) ∧
        y.length = 1 ∧ ∀ r ∈ y, r.length = 1) ∧
    RNNet.forward (RNNet.make rngW rngR sqrt_k u kai 1 1 2 (some [1]) false)
        lstm dropoutF x0 none none true = none := by
  set net := RNNet.make rngW rngR sqrt_k u kai 1 1 2 (some [1]) false with hnet
  have hxh : Shape2 (net.postRNN lstm dropoutF x0) 1 2 :=
    postRNN_shape net lstm dropoutF 1 x0 hx.1 hl hd
  have hpre : net.preDense lstm dropoutF x0 none none
      = some (net.postRNN lstm dropoutF x0) := by
    unfold RNNet.preDense
    rw [show net.add_year_loc = false from rfl]
    simp
  have hfwd : ∀ rld, net.forward lstm dropoutF x0 none none rld
      = net.denseOut (net.postRNN lstm dropoutF x0) rld := by
    intro rld
    unfold RNNet.forward
    rw [hpre]
  have hlay : net.dense_layers
      = [⟨List.replicate 1 ((List.range 2).map kai), List.replicate 1 0⟩] := by
    rw [hnet, make_dense_layers_eq]
    rfl
  constructor
  · refine ⟨Linear.apply ⟨List.replicate 1 ((List.range 2).map kai), List.replicate 1 0⟩
      (net.postRNN lstm dropoutF x0), ?_, ?_, ?_⟩
    · rw [hfwd]
      unfold RNNet.denseOut
      rw [hlay, denseLoop_false_eq]
      rw [applyStack_cons, applyStack_nil]
      simp
    · rw [Linear.apply_length, hxh.1]
    · intro r hr
      have := Linear.apply_width
        ⟨List.replicate 1 ((List.range 2).map kai), List.replicate 1 0⟩
        (by simp) (net.postRNN lstm dropoutF x0) r hr
      simpa using this
  · rw [hfwd]
    unfold RNNet.denseOut
    rw [hlay, denseLoop_true_eq]
    norm_num

/-- Witness for C2's corrected statement at a fully concrete instance. -/
theorem forward_small_config_shapes_witness :
    Shape4 xSmall 1 1 3 1 ∧
    ((∃ y, netSmall.forward lstmId id xSmall none none false = some (FOut.single y) ∧
        y.length = 1 ∧ ∀ r ∈ y, r.length = 1) ∧
      netSmall.forward lstmId id xSmall none none true = none) :=
  ⟨by decide, forward_small_config_shapes (fun _ _ _ => 0) (fun _ => 0) 0
    (fun _ => 0) (fun _ => 0) lstmId id
    (fun _ _ h1 h2 => ⟨h1, h2⟩) (fun _ h => h) xSmall (by decide)⟩

lemma take_getLastD {γ : Type} : ∀ (l : List γ) (k : ℕ) (d : γ), k < l.length →
    (l.take (k + 1)).getLastD d = l.getD k d
  | [], _, _, h => by simp at h
  | a :: t, 0, d, _ => by simp
  | a :: t, k + 1, d, h => by
    rw [List.take_succ_cons, List.getD_cons_succ]
    have ih := take_getLastD t k d (by simpa using h)
    rw [← ih]
    have hne : t.take (k + 1) ≠ [] := by
      cases t with
      | nil => simp at h
      | cons b t' => simp [List.take_succ_cons]
    rw [List.getLastD_cons]
    exact getLastD_irrel _ hne _ _

/-- A concrete two-layer network (hidden size 1) for the C5 witness. -/
def netTwo : RNNet ℚ := ⟨false, 1, [], [⟨[[2]], [1]⟩, ⟨[[3]], [0]⟩]⟩

/-- **C5** (confirmed).  For every network whose dense stack has at least
two (well-formed) layers, `forward` with `return_last_dense=True` succeeds
and returns a pair whose second element is exactly the output of the
second-to-last dense layer — the composition of the first `k - 1` layers
over the feature vector, captured before the final layer consumes it — and
every row of that element has length equal to that layer's output width. -/
theorem return_last_dense_captures_penultimate (net : RNNet α)
    (lstm : T3 α → T3 α × T3 α → T3 α × T3 α) (dropoutF : T3 α → T3 α)
    (x0 : T4 α) (years : Option (Vec α)) (locations : Option (Mat α)) (x1 : Mat α)
    (hw : ∀ L ∈ net.dense_layers, L.bias.length = L.weight.length)
    (hk : 2 ≤ net.dense_layers.length)
    (hpre : net.preDense lstm dropoutF x0 years locations = some x1) :
    net.forward lstm dropoutF x0 years locations true =
      some (FOut.pair (applyStack net.dense_layers x1)
        (applyStack (net.dense_layers.take (net.dense_layers.length - 1)) x1)) ∧
    ∀ r ∈ applyStack (net.dense_layers.take (net.dense_layers.length - 1)) x1,
      r.length =
        (net.dense_layers.getD (net.dense_layers.length - 2) default).outFeatures := by
  have hfwd : net.forward lstm dropoutF x0 years locations true
      = net.denseOut x1 true := by
    unfold RNNet.forward
    rw [hpre]
  have hcond : (0 : ℤ) ≤ (net.dense_layers.length : ℤ) - 2 - 0 ∧
      (net.dense_layers.length : ℤ) - 2 - 0 < (net.dense_layers.length : ℤ) := by
    omega
  have hn : (((net.dense_layers.length : ℤ) - 2 - 0).toNat + 1)
      = net.dense_layers.length - 1 := by omega
  have hlen1 : net.dense_layers.length - 1 = (net.dense_layers.length - 2) + 1 := by
    omega
  constructor
  · rw [hfwd]
    unfold RNNet.denseOut
    rw [denseLoop_true_eq, if_pos hcond, hn]
    simp
  · intro r hr
    have htake_ne : net.dense_layers.take (net.dense_layers.length - 1) ≠ [] := by
      rw [hlen1]
      cases hL : net.dense_layers with
      | nil => rw [hL] at hk; simp at hk
      | cons a t => simp [List.take_succ_cons]
    have hwid := applyStack_width _ htake_ne
      (fun L hL => hw L (List.mem_of_mem_take hL)) x1 r hr
    rw [hwid, hlen1, take_getLastD _ _ _ (by omega)]
    rfl

/-- Witness for C5 at a concrete two-layer network and input. -/
theorem return_last_dense_captures_penultimate_witness :
    (∀ L ∈ netTwo.dense_layers, L.bias.length = L.weight.length) ∧
    2 ≤ netTwo.dense_layers.length ∧
    netTwo.preDense lstmId id [[[[5]]]] none none = some [[0]] ∧
    (netTwo.forward lstmId id [[[[5]]]] none none true =
      some (FOut.pair (applyStack netTwo.dense_layers [[0]])
        (applyStack (netTwo.dense_layers.take (netTwo.dense_layers.length - 1)) [[0]])) ∧
    ∀ r ∈ applyStack (netTwo.dense_layers.take (netTwo.dense_layers.length - 1)) [[0]],
      r.length =
        (netTwo.dense_layers.getD (netTwo.dense_layers.length - 2) default).outFeatures) :=
  ⟨by decide, by decide, by rfl,
    return_last_dense_captures_penultimate netTwo lstmId id [[[[5]]]] none none [[0]]
      (by decide) (by decide) (by rfl)⟩

lemma denseFeaturesOf_false (hidden_size : ℕ) (df : Option (List ℕ)) :
    denseFeaturesOf hidden_size false df = hidden_size :: df.getD [256, 1] := by
  cases df <;> rfl

lemma denseFeaturesOf_true (hidden_size : ℕ) (df : Option (List ℕ)) :
    denseFeaturesOf hidden_size true df = (hidden_size + 3) :: df.getD [256, 1] := by
  cases df <;> rfl

/-- **C6** (confirmed).  Without augmentation and without
`return_last_dense`, `forward` on any (regular) `[batch, channels, time,
bins]` input returns a single tensor of shape `[batch, w]` where `w` is the
last entry of the caller-provided (or defaulted `[256, 1]`) dense-feature
list — provided that list is nonempty and the cell/dropout preserve the
`[1, batch, hidden]` state shape. -/
theorem forward_output_shape
    (rngW : ℕ → ℕ → ℕ → α) (rngR : ℕ → α) (sqrt_k : α) (u kai : ℕ → α)
    (in_channels num_bins hidden_size : ℕ) (df : Option (List ℕ))
    (hdf : df.getD [256, 1] ≠ [])
    (lstm : T3 α → T3 α × T3 α → T3 α × T3 α) (dropoutF : T3 α → T3 α)
    (B C T N : ℕ) (x0 : T4 α) (hx : Shape4 x0 B C T N)
    (hl : ∀ inp s, Shape3 s.1 1 B hidden_size → Shape3 s.2 1 B hidden_size →
      Shape3 (lstm inp s).1 1 B hidden_size ∧ Shape3 (lstm inp s).2 1 B hidden_size)
    (hd : ∀ t, Shape3 t 1 B hidden_size → Shape3 (dropoutF t) 1 B hidden_size) :
    ∃ y, (RNNet.make rngW rngR sqrt_k u kai in_channels num_bins hidden_size
        df false).forward lstm dropoutF x0 none none false = some (FOut.single y) ∧
      y.length = B ∧ ∀ r ∈ y, r.length = (df.getD [256, 1]).getLastD 0 := by
  set net := RNNet.make rngW rngR sqrt_k u kai in_channels num_bins hidden_size df false
    with hnet
  have hsh : Shape2 (net.postRNN lstm dropoutF x0) B hidden_size :=
    postRNN_shape net lstm dropoutF B x0 hx.1 hl hd
  have hpre : net.preDense lstm dropoutF x0 none none
      = some (net.postRNN lstm dropoutF x0) := by
    unfold RNNet.preDense
    rw [show net.add_year_loc = false from rfl]
    simp
  have hfwd : net.forward lstm dropoutF x0 none none false
      = net.denseOut (net.postRNN lstm dropoutF x0) false := by
    unfold RNNet.forward
    rw [hpre]
  refine ⟨applyStack net.dense_layers (net.postRNN lstm dropoutF x0), ?_, ?_, ?_⟩
  · rw [hfwd]
    unfold RNNet.denseOut
    rw [denseLoop_false_eq]
    simp
  · rw [applyStack_length, hsh.1]
  · intro r hr
    have hm : (denseFeaturesOf hidden_size false df).length - 1 ≠ 0 := by
      rw [denseFeaturesOf_false]
      simp only [List.length_cons, Nat.add_sub_cancel]
      intro h0
      exact hdf (List.length_eq_zero.mp h0)
    have hne : net.dense_layers ≠ [] := by
      intro h0
      have := make_dense_layers_length rngW rngR sqrt_k u kai in_channels num_bins
        hidden_size df false
      rw [← hnet, h0] at this
      exact hm this.symm
    have hwid := applyStack_width net.dense_layers hne
      (make_bias_length rngW rngR sqrt_k u kai in_channels num_bins hidden_size df false)
      (net.postRNN lstm dropoutF x0) r hr
    rw [hwid, hnet, make_dense_layers_eq, getLastD_map_range _ _ _ hm]
    simp only [List.length_replicate]
    have hidx : (denseFeaturesOf hidden_size false df).length - 1 - 1 + 1
        = (denseFeaturesOf hidden_size false df).length - 1 := by
      omega
    rw [hidx, getD_length_sub_one _ _ (by rw [denseFeaturesOf_false]; simp)]
    rw [denseFeaturesOf_false, List.getLastD_cons]
    exact getLastD_irrel _ hdf _ _

/-- Witness for C6 at a concrete constructed network and input. -/
theorem forward_output_shape_witness :
    ([1] : List ℕ) ≠ [] ∧ Shape4 xSmall 1 1 3 1 ∧
    ∃ y, netSmall.forward lstmId id xSmall none none false = some (FOut.single y) ∧
      y.length = 1 ∧ ∀ r ∈ y, r.length = ((some [1] : Option (List ℕ)).getD [256, 1]).getLastD 0 :=
  ⟨by decide, by decide,
    forward_output_shape (fun _ _ _ => 0) (fun _ => 0) 0 (fun _ => 0) (fun _ => 0)
      1 1 2 (some [1]) (by decide) lstmId id 1 1 3 1 xSmall (by decide)
      (fun _ _ h1 h2 => ⟨h1, h2⟩) (fun _ h => h)⟩

/-! ## Year/location augmentation -/

lemma zipWith_append_rows : ∀ (a b : Mat α) (d1 d2 : ℕ),
    (∀ r ∈ a, r.length = d1) → (∀ r ∈ b, r.length = d2) →
    ∀ v ∈ List.zipWith (fun r yl => r ++ yl) a b, v.length = d1 + d2
  | [], _, _, _, _, _ => by intro v hv; simp at hv
  | _ :: _, [], _, _, _, _ => by intro v hv; simp at hv
  | x :: xs, y :: ys, d1, d2, hx, hy => by
    intro v hv
    rw [List.zipWith_cons_cons] at hv
    rcases List.mem_cons.mp hv with h | h
    · subst h
      rw [List.length_append, hx x (by simp), hy y (by simp)]
    · exact zipWith_append_rows xs ys d1 d2 (fun r hr => hx r (by simp [hr]))
        (fun r hr => hy r (by simp [hr])) v h

lemma zipWith_cons_rows : ∀ (ys : Vec α) (locs : Mat α) (d : ℕ),
    (∀ l ∈ locs, l.length = d) →
    ∀ v ∈ List.zipWith (fun y l => y :: l) ys locs, v.length = d + 1
  | [], _, _, _ => by intro v hv; simp at hv
  | _ :: _, [], _, _ => by intro v hv; simp at hv
  | y :: ys, l :: ls, d, hls => by
    intro v hv
    rw [List.zipWith_cons_cons] at hv
    rcases List.mem_cons.mp hv with h | h
    · subst h
      rw [List.length_cons, hls l (by simp)]
    · exact zipWith_cons_rows ys ls d (fun r hr => hls r (by simp [hr])) v h

/-- **C7** (confirmed).  With augmentation enabled: (a) the first dense
layer of the constructed network has input width `hidden_size + 3`; (b) in
every forward call with `years`/`locations` supplied, the post-recurrence
feature vector is augmented by concatenating, per example, the year scalar
first and the 2-component location second, producing a
`[batch, hidden_size + 3]` tensor, and `forward` is exactly the dense stack
applied to that tensor. -/
theorem year_loc_augmentation
    (rngW : ℕ → ℕ → ℕ → α) (rngR : ℕ → α) (sqrt_k : α) (u kai : ℕ → α)
    (in_channels num_bins hidden_size : ℕ) (df : Option (List ℕ))
    (hdf : df ≠ some [])
    (lstm : T3 α → T3 α × T3 α → T3 α × T3 α) (dropoutF : T3 α → T3 α)
    (B : ℕ) (x0 : T4 α) (hB : x0.length = B)
    (hl : ∀ inp s, Shape3 s.1 1 B hidden_size → Shape3 s.2 1 B hidden_size →
      Shape3 (lstm inp s).1 1 B hidden_size ∧ Shape3 (lstm inp s).2 1 B hidden_size)
    (hd : ∀ t, Shape3 t 1 B hidden_size → Shape3 (dropoutF t) 1 B hidden_size)
    (ys : Vec α) (locs : Mat α) (hys : ys.length = B) (hlocs : Shape2 locs B 2)
    (rld : Bool) :
    (∃ L0 rest, (RNNet.make rngW rngR sqrt_k u kai in_channels num_bins hidden_size
        df true).dense_layers = L0 :: rest ∧
      ∀ row ∈ L0.weight, row.length = hidden_size + 3) ∧
    (∃ x1, (RNNet.make rngW rngR sqrt_k u kai in_channels num_bins hidden_size
        df true).preDense lstm dropoutF x0 (some ys) (some locs) = some x1 ∧
      x1 = List.zipWith (fun r yl => r ++ yl)
        ((RNNet.make rngW rngR sqrt_k u kai in_channels num_bins hidden_size
          df true).postRNN lstm dropoutF x0)
        (List.zipWith (fun y l => y :: l) ys locs) ∧
      Shape2 x1 B (hidden_size + 3) ∧
      (RNNet.make rngW rngR sqrt_k u kai in_channels num_bins hidden_size
        df true).forward lstm dropoutF x0 (some ys) (some locs) rld =
        (RNNet.make rngW rngR sqrt_k u kai in_channels num_bins hidden_size
          df true).denseOut x1 rld) := by
  set net := RNNet.make rngW rngR sqrt_k u kai in_channels num_bins hidden_size df true
    with hnet
  have hsh : Shape2 (net.postRNN lstm dropoutF x0) B hidden_size :=
    postRNN_shape net lstm dropoutF B x0 hB hl hd
  constructor
  · -- (a): the first dense layer's input width
    have hm : ∃ m', (denseFeaturesOf hidden_size true df).length - 1 = m' + 1 := by
      rw [denseFeaturesOf_true]
      cases hcase : df.getD [256, 1] with
      | nil =>
        exfalso
        cases df with
        | none => simp at hcase
        | some l =>
          exact hdf (by simp only [Option.getD_some] at hcase; rw [hcase])
      | cons a t => exact ⟨t.length, by simp⟩
    obtain ⟨m', hm'⟩ := hm
    rw [hnet, make_dense_layers_eq, hm', List.range_succ_eq_map, List.map_cons]
    refine ⟨_, _, rfl, ?_⟩
    intro row hrow
    have := List.eq_of_mem_replicate hrow
    subst this
    rw [List.length_map, List.length_range]
    rw [denseFeaturesOf_true]
    rfl
  · have hpre2 : net.preDense lstm dropoutF x0 (some ys) (some locs)
        = some (List.zipWith (fun r yl => r ++ yl) (net.postRNN lstm dropoutF x0)
          (List.zipWith (fun y l => y :: l) ys locs)) := by
      unfold RNNet.preDense
      rw [show net.add_year_loc = true from rfl]
      rfl
    refine ⟨List.zipWith (fun r yl => r ++ yl) (net.postRNN lstm dropoutF x0)
      (List.zipWith (fun y l => y :: l) ys locs), hpre2, rfl, ?_, ?_⟩
    · constructor
      · rw [List.length_zipWith, List.length_zipWith, hsh.1, hys, hlocs.1]
        simp
      · intro v hv
        have h3 : ∀ yl ∈ List.zipWith (fun y l => y :: l) ys locs, yl.length = 2 + 1 :=
          zipWith_cons_rows ys locs 2 hlocs.2
        exact zipWith_append_rows _ _ hidden_size 3 hsh.2 h3 v hv
    · unfold RNNet.forward
      rw [hpre2]

/-- Witness for C7 at a concrete augmented network, input, year and
location. -/
theorem year_loc_augmentation_witness :
    ((some [1] : Option (List ℕ)) ≠ some []) ∧
    ((∃ L0 rest, (RNNet.make (fun _ _ _ => (0 : ℚ)) (fun _ => 0) 0 (fun _ => 0)
        (fun _ => 0) 1 1 2 (some [1]) true).dense_layers = L0 :: rest ∧
      ∀ row ∈ L0.weight, row.length = 2 + 3) ∧
    (∃ x1, (RNNet.make (fun _ _ _ => (0 : ℚ)) (fun _ => 0) 0 (fun _ => 0)
        (fun _ => 0) 1 1 2 (some [1]) true).preDense lstmId id xSmall
        (some [5]) (some [[6, 7]]) = some x1 ∧
      x1 = List.zipWith (fun r yl => r ++ yl)
        ((RNNet.make (fun _ _ _ => (0 : ℚ)) (fun _ => 0) 0 (fun _ => 0)
          (fun _ => 0) 1 1 2 (some [1]) true).postRNN lstmId id xSmall)
        (List.zipWith (fun y l => y :: l) [5] [[6, 7]]) ∧
      Shape2 x1 1 (2 + 3) ∧
      (RNNet.make (fun _ _ _ => (0 : ℚ)) (fun _ => 0) 0 (fun _ => 0)
        (fun _ => 0) 1 1 2 (some [1]) true).forward lstmId id xSmall
        (some [5]) (some [[6, 7]]) false =
        (RNNet.make (fun _ _ _ => (0 : ℚ)) (fun _ => 0) 0 (fun _ => 0)
          (fun _ => 0) 1 1 2 (some [1]) true).denseOut x1 false)) :=
  ⟨by decide,
    year_loc_augmentation (fun _ _ _ => 0) (fun _ => 0) 0 (fun _ => 0) (fun _ => 0)
      1 1 2 (some [1]) (by decide) lstmId id 1 xSmall (by decide)
      (fun _ _ h1 h2 => ⟨h1, h2⟩) (fun _ h => h) [5] [[6, 7]] (by decide) (by decide)
      false⟩

/-! ## Weight-initialization bounds (over the reals) -/

/-- A concrete one-parameter real network for the C4 witness. -/
def netReal : RNNet ℝ := ⟨false, 1, [[[7]]], [⟨[[7]], [7]⟩]⟩

/-- **C4** (confirmed).  After `reinitialize_model` (which delegates to the
weight initialization, ignoring `time`): with `sqrt_k` the real value of
`math.sqrt(1 / hidden_size)` and every unit draw in `[0, 1]`, every element
of every LSTM parameter tensor lies within `[-√(1/hidden_size),
+√(1/hidden_size)]`, and every dense-layer bias element is exactly 0. -/
theorem reinitialize_weight_bounds (net : RNNet ℝ) (time : Option ℕ)
    (sqrt_k : ℝ) (u kai : ℕ → ℝ)
    (hu : ∀ e, 0 ≤ u e ∧ u e ≤ 1)
    (hh : 0 < net.hidden_size)
    (hs : sqrt_k = Real.sqrt (1 / (net.hidden_size : ℝ))) :
    (∀ group ∈ (RNNModel.reinitialize_model time sqrt_k u kai net).rnn_all_weights,
      ∀ pam ∈ group, ∀ w ∈ pam,
        -Real.sqrt (1 / (net.hidden_size : ℝ)) ≤ w ∧
          w ≤ Real.sqrt (1 / (net.hidden_size : ℝ))) ∧
    (∀ L ∈ (RNNModel.reinitialize_model time sqrt_k u kai net).dense_layers,
      ∀ b ∈ L.bias, b = 0) := by
  have hs0 : 0 ≤ sqrt_k := hs ▸ Real.sqrt_nonneg _
  constructor
  · intro group hg pam hp w hw
    unfold RNNModel.reinitialize_model RNNet.init_weights at hg
    simp only [List.mem_map] at hg
    obtain ⟨g0, _, rfl⟩ := hg
    simp only [List.mem_map] at hp
    obtain ⟨p0, _, rfl⟩ := hp
    unfold uniformFill at hw
    simp only [List.mem_map, List.mem_range] at hw
    obtain ⟨e, _, rfl⟩ := hw
    obtain ⟨h0, h1⟩ := hu e
    rw [← hs]
    constructor <;> nlinarith
  · intro L hL b hb
    unfold RNNModel.reinitialize_model RNNet.init_weights at hL
    simp only [List.mem_map] at hL
    obtain ⟨L0, _, rfl⟩ := hL
    simp only [List.mem_map] at hb
    obtain ⟨b0, _, rfl⟩ := hb
    rfl

/-- Witness for C4 at a concrete real network, with unit draws 1/2 and
`sqrt_k = √(1/1) = 1`. -/
theorem reinitialize_weight_bounds_witness :
    (∀ e : ℕ, 0 ≤ (fun _ : ℕ => (1 : ℝ) / 2) e ∧ (fun _ : ℕ => (1 : ℝ) / 2) e ≤ 1) ∧
    0 < netReal.hidden_size ∧
    ((1 : ℝ) = Real.sqrt (1 / (netReal.hidden_size : ℝ))) ∧
    ((∀ group ∈ (RNNModel.reinitialize_model none 1 (fun _ : ℕ => (1 : ℝ) / 2)
        (fun _ => 0) netReal).rnn_all_weights,
      ∀ pam ∈ group, ∀ w ∈ pam,
        -Real.sqrt (1 / (netReal.hidden_size : ℝ)) ≤ w ∧
          w ≤ Real.sqrt (1 / (netReal.hidden_size : ℝ))) ∧
    (∀ L ∈ (RNNModel.reinitialize_model none 1 (fun _ : ℕ => (1 : ℝ) / 2)
        (fun _ => 0) netReal).dense_layers, ∀ b ∈ L.bias, b = 0)) :=
  ⟨fun _ => by norm_num, by norm_num [netReal],
    by norm_num [netReal],
    reinitialize_weight_bounds netReal none 1 (fun _ => (1 : ℝ) / 2) (fun _ => 0)
      (fun _ => by norm_num) (by norm_num [netReal]) (by norm_num [netReal])⟩

/-! ## Device placement of the transient states (rnn.py lines 120-125) -/

/-- A torch device: the CPU, or a CUDA device with its index. -/
inductive Device where
  | cpu : Device
  | cuda : ℕ → Device
deriving DecidableEq

/-- `tensor.is_cuda`. -/
def Device.is_cuda : Device → Bool
  | .cpu => false
  | .cuda _ => true

/-- A tensor value tagged with the device its storage lives on. -/
structure DTensor (α : Type) where
  data : T3 α
  device : Device

/-- `tensor.cuda()`: a copy of the tensor on the *current* CUDA device —
torch's documented semantics for the no-argument call, whatever device the
source tensor lives on. -/
def DTensor.cuda (current_device : ℕ) (t : DTensor α) : DTensor α :=
  { t with device := Device.cuda current_device }

/-- rnn.py lines 120-125: `torch.zeros(1, batch, hidden_size)` allocates
both states zero-filled on the (default) CPU device; then, iff `x.is_cuda`,
both are replaced by `.cuda()` copies on the current CUDA device. -/
def allocStates (current_device : ℕ) (input_device : Device)
    (batch hidden_size : ℕ) : DTensor α × DTensor α :=
  let hidden_state : DTensor α :=
    ⟨[List.replicate batch (List.replicate hidden_size 0)], Device.cpu⟩
  let cell_state : DTensor α :=
    ⟨[List.replicate batch (List.replicate hidden_size 0)], Device.cpu⟩
  if input_device.is_cuda then
    (hidden_state.cuda current_device, cell_state.cuda current_device)
  else (hidden_state, cell_state)

/-- **C8** counterexample: with the input on `cuda:1` while the current
CUDA device is `cuda:0`, the freshly allocated hidden/cell states land on
`cuda:0` — not on the input's device as claimed. -/
theorem alloc_states_device_counterexample :
    ((allocStates (α := ℚ) 0 (Device.cuda 1) 1 1).1.device ≠ Device.cuda 1) ∧
    ((allocStates (α := ℚ) 0 (Device.cuda 1) 1 1).2.device ≠ Device.cuda 1) := by
  constructor <;> decide

/-- **C8** (corrected).  At the start of each forward call the hidden and
cell states are allocated zero-filled with shape `[1, batch, hidden_size]`;
they stay on the CPU when the input is on the CPU, and are moved to the
*current* CUDA device whenever the input is on any CUDA device — so they
share the input's device exactly when that is the CPU or the current CUDA
device. -/
theorem alloc_states_spec (current_device : ℕ) (input_device : Device)
    (batch hidden_size : ℕ) :
    (allocStates (α := α) current_device input_device batch hidden_size).1.data
      = [List.replicate batch (List.replicate hidden_size 0)] ∧
    (allocStates (α := α) current_device input_device batch hidden_size).2.data
      = [List.replicate batch (List.replicate hidden_size 0)] ∧
    (allocStates (α := α) current_device input_device batch hidden_size).1.device
      = (if input_device.is_cuda then Device.cuda current_device else Device.cpu) ∧
    (allocStates (α := α) current_device input_device batch hidden_size).2.device
      = (if input_device.is_cuda then Device.cuda current_device else Device.cpu) := by
  unfold allocStates
  cases input_device <;> simp [DTensor.cuda, Device.is_cuda]

end CropRNN
